import Mathlib

/-!
Shallow embedding of the pie-chart geometry engine of `src/src/charts/pie.rs`
(the `PieChart` component of dioxus-charts).  Rust `f32` arithmetic is
modelled by exact rational arithmetic (`ℚ`); machine rounding is immaterial
to the angle bookkeeping properties verified here.  The presentation glue
(SVG attribute strings, CSS classes, `width`/`height` pass-through) is out
of scope; the geometric content of each emitted `path` element is kept as a
structured value.
-/

namespace Pie

/-- Modelled from the spec: `Point` lives in `crate::types`, which is not under
`src/`; spec section 3 describes it as a plain 2D coordinate value type. -/
structure Point where
  x : ℚ
  y : ℚ
deriving DecidableEq

/-- Modelled from the spec: `polar_to_cartesian` lives in `crate::utils`, which
is not under `src/`.  Spec section 4.3 describes it as a pure trigonometric
conversion of (center, radius, angle-in-degrees) to a cartesian point, with a
fixed but unspecified angle convention.  Exact real cosine/sine are not
rational, so the trigonometric pair is a parameter of the whole development;
every theorem about angle bookkeeping holds for all choices of it. -/
structure Trig where
  cosd : ℚ → ℚ
  sind : ℚ → ℚ

/-- Modelled from the spec (section 4.3): the polar projector applied with a
given trigonometric pair. -/
def polar_to_cartesian (t : Trig) (center : Point) (radius angle : ℚ) : Point :=
  ⟨center.x + radius * t.cosd angle, center.y + radius * t.sind angle⟩

/-- Modelled from the spec: `normalize_series` lives in `crate::utils`, which is
not under `src/`.  Spec sections 4.1, 8 and 9 require a same-length,
order-preserving, non-negative output and name clamp-to-zero as the policy
(`[10, -5, 5] ↦ [10, 0, 5]`). -/
def normalize_series (s : List ℚ) : List ℚ := s.map (fun v => max v 0)

/-- The `LabelPosition` enum of `pie.rs` (lines 8-15). -/
inductive LabelPosition where
  | Inside
  | Outside
  | Center
deriving DecidableEq

/-- The geometric content of the `d` attribute built at `pie.rs` lines 191-205:
either a donut ring segment (`M A L A Z`) or a solid wedge (`M A L Z`).
The string rendering itself is presentation glue; the fields below are exactly
the values interpolated into it. -/
inductive PathD where
  | donutPath (endPos : Point) (radius : ℚ) (largeArc : ℕ) (startPos : Point)
      (innerStartPos : Point) (donutRadius : ℚ) (innerEndPos : Point)
  | piePath (endPos : Point) (radius : ℚ) (largeArc : ℕ) (startPos : Point)
      (center : Point)
deriving DecidableEq

/-- The inner (donut) radius interpolated into a path, when there is one. -/
def PathD.innerRadius : PathD → Option ℚ
  | .donutPath _ _ _ _ _ dr _ => some dr
  | .piePath _ _ _ _ _ => none

/-- The outer radius interpolated into a path. -/
def PathD.outerRadius : PathD → ℚ
  | .donutPath _ r _ _ _ _ _ => r
  | .piePath _ r _ _ _ => r

/-- The `PieChartProps` configuration of `pie.rs` (lines 19-64), restricted to
the fields that feed the geometry (CSS class and `width`/`height` string
fields are presentation glue).  Defaults are the `#[props(default = ...)]`
values of the source. -/
structure PieChartProps where
  series : List ℚ
  labels : Option (List String) := none
  viewbox_width : ℤ := 600
  viewbox_height : ℤ := 400
  show_labels : Bool := true
  label_position : LabelPosition := LabelPosition.Inside
  label_offset : ℚ := 0
  start_angle : ℚ := 0
  total : Option ℚ := none
  show_ratio : Option ℚ := none
  padding : ℚ := 0
  donut : Bool := false
  donut_width : ℚ := 40

/-- `pie.rs` lines 134-137: the viewbox center. -/
def center (p : PieChartProps) : Point :=
  ⟨(p.viewbox_width : ℚ) / 2, (p.viewbox_height : ℚ) / 2⟩

/-- `pie.rs` line 138: `center.x.min(center.y)`. -/
def center_min (p : PieChartProps) : ℚ :=
  min (center p).x (center p).y

/-- `pie.rs` line 139: `center_min - 30.0 - padding`.  There is no radius prop
and no lower clamp. -/
def radius (p : PieChartProps) : ℚ :=
  center_min p - 30 - p.padding

/-- `pie.rs` lines 140-144: the label radius by label-position strategy. -/
def label_radius (p : PieChartProps) : ℚ :=
  match p.label_position with
  | LabelPosition.Inside => radius p / 2 + p.label_offset
  | LabelPosition.Outside => radius p + p.label_offset
  | LabelPosition.Center => 0 + p.label_offset

/-- `pie.rs` line 147: the sum of the normalized series. -/
def normalized_sum (p : PieChartProps) : ℚ :=
  (normalize_series p.series).sum

/-- `pie.rs` lines 149-155: resolution of `values_total`, with `show_ratio`
taking precedence over `total`, which takes precedence over the natural sum.
Rust `f32::clamp(lo, hi)` is `min (max x lo) hi`. -/
def values_total (p : PieChartProps) : ℚ :=
  match p.show_ratio with
  | some r => 1 / (min (max r (1 / 10000)) 1) * normalized_sum p
  | none =>
    match p.total with
    | some v => max (normalized_sum p / p.series.sum * v) (normalized_sum p)
    | none => normalized_sum p

/-- A definition following the spec words of section 4.2 (claim C5), to be
compared with `values_total`: "valuesTotal = normalizedSum / clamp(showRatio)"
when `showRatio` is set, else the `total` scaling with `max`, else the
natural sum. -/
def values_total_spec (p : PieChartProps) : ℚ :=
  match p.show_ratio with
  | some r => normalized_sum p / (min (max r (1 / 10000)) 1)
  | none =>
    match p.total with
    | some v => max (normalized_sum p / p.series.sum * v) (normalized_sum p)
    | none => normalized_sum p

/-- One emitted slice of the walk at `pie.rs` lines 171-229: the spec's
`SliceDescriptor` with both the bookkeeping start angle (`m_start_angle` at
emission) and the drawn (seam-corrected) start angle. -/
structure Slice where
  index : ℕ
  startAngle : ℚ
  drawnStartAngle : ℚ
  endAngle : ℚ
  largeArc : ℕ
  colorValue : ℚ
  path : PathD
deriving DecidableEq

/-- The mutable state threaded through the slice walk of `pie.rs`
(lines 157-160): `m_start_angle`, `color_var`, `class_index`,
`label_positions`, plus the list of emitted slices. -/
structure WalkState where
  m_start_angle : ℚ
  color_var : ℚ
  class_index : ℕ
  label_positions : List Point
  slices : List Slice
deriving DecidableEq

/-- `pie.rs` lines 173-177: the pre-clamp end angle, 0 when
`values_total <= 0` (the division is guarded). -/
def end_angle_raw (p : PieChartProps) (st : WalkState) (v : ℚ) : ℚ :=
  if 0 < values_total p then st.m_start_angle + v / values_total p * 360 else 0

/-- `pie.rs` lines 178-182: the anti-seam drawn start angle,
`max (m_start_angle - 0.4) 0` for every slice after the first. -/
def overlap_start_angle (st : WalkState) : ℚ :=
  if st.class_index ≠ 0 then max (st.m_start_angle - 2 / 5) 0 else st.m_start_angle

/-- `pie.rs` lines 183-185: the full-circle clamp,
`end_angle = overlap_start_angle + 359.99` when the drawn span reaches
359.99 degrees. -/
def end_angle (p : PieChartProps) (st : WalkState) (v : ℚ) : ℚ :=
  if 35999 / 100 ≤ end_angle_raw p st v - overlap_start_angle st then
    overlap_start_angle st + 35999 / 100
  else
    end_angle_raw p st v

/-- `pie.rs` line 189: the large-arc flag, from the span measured against the
bookkeeping start angle. -/
def large_arc (p : PieChartProps) (st : WalkState) (v : ℚ) : ℕ :=
  if 180 < end_angle p st v - st.m_start_angle then 1 else 0

/-- `pie.rs` lines 191-205: the path content of one slice. -/
def slice_path (t : Trig) (p : PieChartProps) (st : WalkState) (v : ℚ) : PathD :=
  let start_position := polar_to_cartesian t (center p) (radius p) (overlap_start_angle st)
  let end_position := polar_to_cartesian t (center p) (radius p) (end_angle p st v)
  if p.donut then
    let donut_radius := radius p - p.donut_width
    PathD.donutPath end_position (radius p) (large_arc p st v) start_position
      (polar_to_cartesian t (center p) donut_radius (overlap_start_angle st))
      donut_radius
      (polar_to_cartesian t (center p) donut_radius (end_angle p st v))
  else
    PathD.piePath end_position (radius p) (large_arc p st v) start_position (center p)

/-- One iteration of the `normalized_series.iter().map(...)` walk of `pie.rs`
lines 171-229.  A non-zero entry emits a slice, pushes the label anchor at the
angular midpoint of the bookkeeping boundaries, decays `color_var`, advances
`class_index`, and sets `m_start_angle` to the (possibly clamped) end angle;
a zero entry only pushes the `Point::new(-1.0, -1.0)` sentinel anchor
(line 226). -/
def slice_step (t : Trig) (p : PieChartProps) (st : WalkState) (v : ℚ) : WalkState :=
  if v ≠ 0 then
    { m_start_angle := end_angle p st v
      color_var := st.color_var - 75 * (1 / ((st.class_index : ℚ) + 1))
      class_index := st.class_index + 1
      label_positions := st.label_positions ++
        [polar_to_cartesian t (center p) (label_radius p)
          (st.m_start_angle + (end_angle p st v - st.m_start_angle) / 2)]
      slices := st.slices ++
        [⟨st.class_index, st.m_start_angle, overlap_start_angle st, end_angle p st v,
          large_arc p st v, st.color_var, slice_path t p st v⟩] }
  else
    { st with label_positions := st.label_positions ++ [Point.mk (-1) (-1)] }

/-- `pie.rs` lines 157-160: the initial walk state (`m_start_angle` from the
`start_angle` prop, `color_var = 255.0`, `class_index = 0`). -/
def init_state (p : PieChartProps) : WalkState :=
  ⟨p.start_angle, 255, 0, [], []⟩

/-- The complete slice/label walk over the normalized series. -/
def run (t : Trig) (p : PieChartProps) : WalkState :=
  List.foldl (slice_step t p) (init_state p) (normalize_series p.series)

/-- `pie.rs` lines 130-132: the empty-series guard; no geometry is produced
for an empty series. -/
def pie_chart (t : Trig) (p : PieChartProps) : Option WalkState :=
  if p.series = [] then none else some (run t p)

/-- Whether the label emission filter of `pie.rs` (lines 234 and 262,
`position.x > 0.0`) drops an anchor. -/
def suppressed (pt : Point) : Prop := ¬ 0 < pt.x

/-- `pie.rs` lines 252-279: when no explicit labels are supplied and
`show_labels` is on, the anchors are paired with the raw series values by
position, and a label element is emitted only when `position.x > 0.0`.
(The label text itself - `label_interpolation` or `to_string` - is
presentation glue; the pair keeps the raw value.) -/
def emitted_value_labels (t : Trig) (p : PieChartProps) : List (Point × ℚ) :=
  match p.labels with
  | some _ => []
  | none =>
    if p.show_labels then
      ((run t p).label_positions.zip p.series).filter (fun q => decide (0 < q.1.x))
    else []

/-- `pie.rs` lines 230-251: when explicit labels are supplied, the anchors are
paired with them by position and filtered by the same `position.x > 0.0`
test. -/
def emitted_text_labels (t : Trig) (p : PieChartProps) : List (Point × String) :=
  match p.labels with
  | some ls =>
    ((run t p).label_positions.zip ls).filter (fun q => decide (0 < q.1.x))
  | none => []

/-- Comparison variant for claim C8, following the spec words of section 4.4:
the same step with the anti-seam correction removed, so the drawn start angle
is the bookkeeping `m_start_angle` itself.  Only used to state and settle the
seam-isolation claim. -/
def end_angle_ns (p : PieChartProps) (st : WalkState) (v : ℚ) : ℚ :=
  if 35999 / 100 ≤ end_angle_raw p st v - st.m_start_angle then
    st.m_start_angle + 35999 / 100
  else
    end_angle_raw p st v

/-- Comparison variant for claim C8: the walk step without the anti-seam
correction. -/
def slice_step_ns (t : Trig) (p : PieChartProps) (st : WalkState) (v : ℚ) : WalkState :=
  if v ≠ 0 then
    { m_start_angle := end_angle_ns p st v
      color_var := st.color_var - 75 * (1 / ((st.class_index : ℚ) + 1))
      class_index := st.class_index + 1
      label_positions := st.label_positions ++
        [polar_to_cartesian t (center p) (label_radius p)
          (st.m_start_angle + (end_angle_ns p st v - st.m_start_angle) / 2)]
      slices := st.slices ++
        [⟨st.class_index, st.m_start_angle, st.m_start_angle, end_angle_ns p st v,
          (if 180 < end_angle_ns p st v - st.m_start_angle then 1 else 0), st.color_var,
          slice_path t p st v⟩] }
  else
    { st with label_positions := st.label_positions ++ [Point.mk (-1) (-1)] }

/-- Comparison variant for claim C8: the whole walk without the anti-seam
correction. -/
def run_ns (t : Trig) (p : PieChartProps) : WalkState :=
  List.foldl (slice_step_ns t p) (init_state p) (normalize_series p.series)

/-- The full-circle clamp of `pie.rs` lines 183-185 never fires during the
walk over `l` from `st` (every non-zero entry keeps a drawn span strictly
below 359.99 degrees). -/
def no_clamp_walk (t : Trig) (p : PieChartProps) : List ℚ → WalkState → Prop
  | [], _ => True
  | v :: tl, st =>
    (v ≠ 0 → end_angle_raw p st v - overlap_start_angle st < 35999 / 100) ∧
      no_clamp_walk t p tl (slice_step t p st v)

/-- The clamp never fires during the whole walk. -/
def no_clamp_run (t : Trig) (p : PieChartProps) : Prop :=
  no_clamp_walk t p (normalize_series p.series) (init_state p)

/-- The clamp never fires during the uncorrected comparison walk
(claim C8). -/
def no_clamp_walk_ns (t : Trig) (p : PieChartProps) : List ℚ → WalkState → Prop
  | [], _ => True
  | v :: tl, st =>
    (v ≠ 0 → end_angle_raw p st v - st.m_start_angle < 35999 / 100) ∧
      no_clamp_walk_ns t p tl (slice_step_ns t p st v)

/-- The clamp never fires during the whole uncorrected comparison walk. -/
def no_clamp_run_ns (t : Trig) (p : PieChartProps) : Prop :=
  no_clamp_walk_ns t p (normalize_series p.series) (init_state p)

/-- The bookkeeping projection of a slice (claim C8): everything except the
drawn start angle and the path built from it. -/
def slice_book (d : Slice) : ℕ × ℚ × ℚ × ℚ :=
  (d.index, d.startAngle, d.endAngle, d.colorValue)

/-- A constant trigonometric probe (the exact cosine/sine values at angle 0);
the angle bookkeeping facts evaluated with it do not depend on it. -/
def trig0 : Trig := ⟨fun _ => 1, fun _ => 0⟩

/-- A trigonometric probe agreeing with the exact real cosine/sine at both
angles it is ever evaluated at in the C3 counterexample (0 and 180 degrees:
cos 0 = 1, cos 180 = -1, sin 0 = sin 180 = 0). -/
def quad_trig : Trig := ⟨fun a => if a = 180 then -1 else 1, fun _ => 0⟩

/-- An injective angle probe (claim C8): it reports the angle itself, so
distinct anchor angles give distinct anchor points. -/
def probe_trig : Trig := ⟨fun a => a, fun a => a⟩

/-- Concrete input for claim C1: four equal entries, default configuration. -/
def props_c1 : PieChartProps := { series := [1, 1, 1, 1] }

/-- Concrete input for claim C2: a donut whose `donut_width` (200) exceeds the
radius (170). -/
def props_c2 : PieChartProps := { series := [1], donut := true, donut_width := 200 }

/-- Concrete input for claim C3: two equal entries, outside labels with a 200
offset, so the second label anchor lands at x = -70 < 0. -/
def props_c3 : PieChartProps :=
  { series := [1, 1], start_angle := -90,
    label_position := LabelPosition.Outside, label_offset := 200 }

/-- Concrete input for claim C4: all entries negative, so the normalized sum
and the resolved total are 0. -/
def props_c4 : PieChartProps := { series := [-1, -2] }

/-- Concrete input for claim C5: the spec scenario `series = [3,1]`,
`total = 40`. -/
def props_c5 : PieChartProps := { series := [3, 1], total := some 40 }

/-- Concrete input for claim C6: the spec scenario `series = [1]` with
defaults. -/
def props_c6 : PieChartProps := { series := [1] }

/-- Concrete input for claim C8: a tiny first slice followed by a near-full
slice, so the full-circle clamp fires only in the seam-corrected walk. -/
def props_c8 : PieChartProps := { series := [3 / 10, 3597 / 10] }

/-- Concrete input for claim C9: a zero entry between two non-zero ones. -/
def props_c9 : PieChartProps := { series := [5, 0, 3] }

/-- Concrete input for claim C10: padding large enough to drive the radius to
-10. -/
def props_c10 : PieChartProps := { series := [1], padding := 180 }

end Pie

namespace Pie

set_option maxHeartbeats 1600000

/-- A non-zero entry appends exactly one slice, whose fields are the
step's angle, color and path computations. -/
lemma slice_step_slices_nonzero (t : Trig) (p : PieChartProps) (st : WalkState) (v : ℚ)
    (h : v ≠ 0) :
    (slice_step t p st v).slices = st.slices ++
      [⟨st.class_index, st.m_start_angle, overlap_start_angle st, end_angle p st v,
        large_arc p st v, st.color_var, slice_path t p st v⟩] := by
  simp [slice_step, h]

/-- A zero entry appends no slice. -/
lemma slice_step_slices_zero (t : Trig) (p : PieChartProps) (st : WalkState) :
    (slice_step t p st 0).slices = st.slices := by
  simp [slice_step]

/-- Any property holding of every slice a step can append, and of every slice
already present, holds of every slice after the walk. -/
lemma foldl_slices_all (t : Trig) (p : PieChartProps) (P : Slice → Prop)
    (hP : ∀ (st : WalkState) (v : ℚ), v ≠ 0 →
      P ⟨st.class_index, st.m_start_angle, overlap_start_angle st, end_angle p st v,
        large_arc p st v, st.color_var, slice_path t p st v⟩) :
    ∀ (l : List ℚ) (st : WalkState), (∀ d ∈ st.slices, P d) →
      ∀ d ∈ (List.foldl (slice_step t p) st l).slices, P d := by
  intro l
  induction l with
  | nil => intro st h; simpa using h
  | cons v tl ih =>
    intro st h
    rw [List.foldl_cons]
    apply ih
    by_cases hv : v = 0
    · subst hv; rw [slice_step_slices_zero]; exact h
    · rw [slice_step_slices_nonzero t p st v hv]
      intro d hd
      rcases List.mem_append.mp hd with hd | hd
      · exact h d hd
      · rw [List.mem_singleton] at hd
        subst hd
        exact hP st v hv

/-- A map whose values agree everywhere is a replicate. -/
lemma map_eq_replicate_of_forall {α β : Type} (f : α → β) (a : β) :
    ∀ l : List α, (∀ x ∈ l, f x = a) → l.map f = List.replicate l.length a := by
  intro l
  induction l with
  | nil => intro _; rfl
  | cons x tl ih =>
    intro h
    simp only [List.map_cons, List.length_cons, List.replicate_succ]
    rw [h x (by simp), ih (fun y hy => h y (by simp [hy]))]

/-- Every entry of a normalized series is non-negative. -/
lemma normalize_series_nonneg (s : List ℚ) : ∀ x ∈ normalize_series s, 0 ≤ x := by
  intro x hx
  unfold normalize_series at hx
  rcases List.mem_map.mp hx with ⟨v, _, rfl⟩
  exact le_max_right _ _

/-- When the resolved total is non-positive, so is the normalized sum: the
ratio clamp keeps the `show_ratio` divisor positive, and the `total` branch
takes a max against the normalized sum. -/
lemma normalized_sum_nonpos (p : PieChartProps) (h : values_total p ≤ 0) :
    normalized_sum p ≤ 0 := by
  unfold values_total at h
  cases hr : p.show_ratio with
  | some r =>
    rw [hr] at h
    have hc : 0 < min (max r (1 / 10000 : ℚ)) 1 :=
      lt_min (lt_of_lt_of_le (by norm_num) (le_max_right _ _)) one_pos
    by_contra hns
    push_neg at hns
    have := mul_pos (one_div_pos.mpr hc) hns
    linarith
  | none =>
    rw [hr] at h
    cases ht : p.total with
    | some v =>
      rw [ht] at h
      exact le_trans (le_max_right _ _) h
    | none =>
      rw [ht] at h
      exact h

/-- A list of non-negative rationals with non-positive sum is all zeros. -/
lemma all_zero_of_sum_nonpos :
    ∀ l : List ℚ, (∀ x ∈ l, 0 ≤ x) → l.sum ≤ 0 → ∀ x ∈ l, x = 0 := by
  intro l
  induction l with
  | nil => simp
  | cons a tl ih =>
    intro hpos hsum x hx
    have hts : 0 ≤ tl.sum :=
      List.sum_nonneg (fun y hy => hpos y (List.mem_cons_of_mem _ hy))
    have ha : 0 ≤ a := hpos a (List.mem_cons_self _ _)
    rw [List.sum_cons] at hsum
    rcases List.mem_cons.mp hx with rfl | hx
    · linarith
    · exact ih (fun y hy => hpos y (List.mem_cons_of_mem _ hy)) (by linarith) x hx

/-- A walk over an all-zero list emits no slice. -/
lemma foldl_zero_slices (t : Trig) (p : PieChartProps) :
    ∀ (l : List ℚ) (st : WalkState), (∀ v ∈ l, v = 0) →
      (List.foldl (slice_step t p) st l).slices = st.slices := by
  intro l
  induction l with
  | nil => intro st _; rfl
  | cons v tl ih =>
    intro st h
    rw [List.foldl_cons]
    have hv : v = 0 := h v (List.mem_cons_self _ _)
    subst hv
    rw [ih _ (fun y hy => h y (List.mem_cons_of_mem _ hy)), slice_step_slices_zero]

/-- The radius formula of `pie.rs` lines 134-139, with the halving of the
minimum pulled out of the `min`. -/
lemma radius_formula (p : PieChartProps) :
    radius p = min ((p.viewbox_width : ℚ)) ((p.viewbox_height : ℚ)) / 2 - 30 - p.padding := by
  unfold radius center_min center
  rcases le_total ((p.viewbox_width : ℚ)) ((p.viewbox_height : ℚ)) with h | h
  · rw [min_eq_left (by linarith : (p.viewbox_width : ℚ) / 2 ≤ (p.viewbox_height : ℚ) / 2),
      min_eq_left h]
  · rw [min_eq_right (by linarith : (p.viewbox_height : ℚ) / 2 ≤ (p.viewbox_width : ℚ) / 2),
      min_eq_right h]

end Pie

namespace Pie

/-- Claim C5: `values_total` resolution has the spec's precedence and formulas
(`show_ratio` clamp-and-divide over `total` scale-and-max over the natural
sum), and on `series = [3,1]` with `total = 40` it resolves to 40 with a first
slice spanning 27 degrees. -/
theorem c5_total_resolution :
    (∀ p : PieChartProps, values_total p = values_total_spec p) ∧
    values_total props_c5 = 40 ∧
    (run trig0 props_c5).slices.map (fun d => d.endAngle - d.startAngle) = [27, 9] := by
  refine ⟨fun p => ?_, ?_, ?_⟩
  · unfold values_total values_total_spec
    cases hr : p.show_ratio with
    | some r => simp only []; ring
    | none => rfl
  · norm_num [values_total, normalized_sum, normalize_series, props_c5, max_def, min_def]
  · norm_num [run, init_state, slice_step, end_angle, end_angle_raw, overlap_start_angle,
      large_arc, slice_path, values_total, normalized_sum, normalize_series, center,
      center_min, radius, label_radius, polar_to_cartesian, trig0, List.foldl, max_def,
      min_def, props_c5]

/-- Claim C7: a zero normalized entry leaves the whole walk state unchanged
except for recording the `Point::new(-1.0, -1.0)` sentinel anchor at its
series position: no slice is emitted, and neither `m_start_angle` nor
`class_index` nor `color_var` advances; the sentinel fails the label emission
test (it is suppressed). -/
theorem c7_zero_entry (t : Trig) (p : PieChartProps) (st : WalkState) :
    slice_step t p st 0 =
      { st with label_positions := st.label_positions ++ [Point.mk (-1) (-1)] } ∧
    suppressed (Point.mk (-1) (-1)) := by
  constructor
  · simp [slice_step]
  · intro h
    norm_num at h

/-- Claim C10: the chart radius is not a prop; it is
`min(viewbox_width, viewbox_height) / 2 - 30 - padding` with no lower clamp,
so it is non-positive whenever the padding reaches `min/2 - 30`, and geometry
(slice paths carrying that radius, and label anchors) is still produced; with
`padding = 180` and default viewbox the radius is -10 and the emitted path
carries outer radius -10. -/
theorem c10_radius :
    (∀ p : PieChartProps,
        radius p = min ((p.viewbox_width : ℚ)) ((p.viewbox_height : ℚ)) / 2 - 30 - p.padding) ∧
    (∀ p : PieChartProps,
        min ((p.viewbox_width : ℚ)) ((p.viewbox_height : ℚ)) / 2 - 30 ≤ p.padding →
          radius p ≤ 0) ∧
    radius props_c10 = -10 ∧
    (run trig0 props_c10).slices.map (fun d => PathD.outerRadius d.path) = [-10] ∧
    (run trig0 props_c10).label_positions.length = 1 := by
  refine ⟨radius_formula, fun p h => ?_, ?_, ?_, ?_⟩
  · have hf := radius_formula p
    linarith
  · norm_num [radius, center_min, center, props_c10, min_def]
  · norm_num [run, init_state, slice_step, end_angle, end_angle_raw, overlap_start_angle,
      large_arc, slice_path, values_total, normalized_sum, normalize_series, center,
      center_min, radius, label_radius, polar_to_cartesian, PathD.outerRadius, trig0,
      List.foldl, max_def, min_def, props_c10]
  · norm_num [run, init_state, slice_step, end_angle, end_angle_raw, overlap_start_angle,
      large_arc, slice_path, values_total, normalized_sum, normalize_series, center,
      center_min, radius, label_radius, polar_to_cartesian, trig0, List.foldl, max_def,
      min_def, props_c10]

/-- Witness for the hypothesis-bearing part of the C10 theorem, at the
concrete padding-180 configuration. -/
theorem c10_radius_witness :
    min ((props_c10.viewbox_width : ℚ)) ((props_c10.viewbox_height : ℚ)) / 2 - 30 ≤
      props_c10.padding ∧ radius props_c10 ≤ 0 :=
  ⟨by norm_num [props_c10, min_def],
   c10_radius.2.1 props_c10 (by norm_num [props_c10, min_def])⟩

/-- Claim C2 as stated is false: with `donut_width = 200` and radius 170 the
single emitted donut path carries inner radius -30, which is negative - the
code never clamps `radius - donut_width`. -/
theorem c2_claim_counterexample :
    (run trig0 props_c2).slices.map (fun d => PathD.innerRadius d.path) = [some (-30)] ∧
    (-30 : ℚ) < 0 := by
  constructor
  · norm_num [run, init_state, slice_step, end_angle, end_angle_raw, overlap_start_angle,
      large_arc, slice_path, values_total, normalized_sum, normalize_series, center,
      center_min, radius, label_radius, polar_to_cartesian, PathD.innerRadius, trig0,
      List.foldl, max_def, min_def, props_c2]
  · norm_num

/-- Claim C2 amended: in donut mode every emitted path carries inner radius
exactly `radius - donut_width`, unclamped, hence negative whenever
`donut_width > radius`. -/
theorem c2_inner_radius (t : Trig) (p : PieChartProps) (hd : p.donut = true) :
    (run t p).slices.map (fun d => PathD.innerRadius d.path) =
      List.replicate (run t p).slices.length (some (radius p - p.donut_width)) := by
  have hall : ∀ d ∈ (run t p).slices,
      PathD.innerRadius d.path = some (radius p - p.donut_width) := by
    unfold run
    refine foldl_slices_all t p _ ?_ _ _ ?_
    · intro st v _
      simp [slice_path, hd, PathD.innerRadius]
    · simp [init_state]
  exact map_eq_replicate_of_forall _ _ _ hall

/-- Witness for the C2 amended theorem at the concrete donut configuration. -/
theorem c2_inner_radius_witness :
    props_c2.donut = true ∧
    (run trig0 props_c2).slices.map (fun d => PathD.innerRadius d.path) =
      List.replicate (run trig0 props_c2).slices.length
        (some (radius props_c2 - props_c2.donut_width)) :=
  ⟨rfl, c2_inner_radius trig0 props_c2 rfl⟩

/-- Claim C6: the full-circle clamp sets the end angle to the drawn start
angle plus 359.99 degrees exactly when the drawn span reaches 359.99, the
emitted descriptor carries exactly that drawn start and end angle, and
`series = [1]` with defaults emits one slice of drawn span 359.99, not
360. -/
theorem c6_full_circle_clamp :
    (∀ (p : PieChartProps) (st : WalkState) (v : ℚ),
        35999 / 100 ≤ end_angle_raw p st v - overlap_start_angle st →
          end_angle p st v = overlap_start_angle st + 35999 / 100) ∧
    (∀ (t : Trig) (p : PieChartProps) (st : WalkState) (v : ℚ), v ≠ 0 →
        (slice_step t p st v).slices.map (fun d => (d.drawnStartAngle, d.endAngle)) =
          st.slices.map (fun d => (d.drawnStartAngle, d.endAngle)) ++
            [(overlap_start_angle st, end_angle p st v)]) ∧
    (run trig0 props_c6).slices.map (fun d => (d.drawnStartAngle, d.endAngle)) =
      [(0, 35999 / 100)] ∧
    (35999 / 100 : ℚ) ≠ 360 := by
  refine ⟨fun p st v h => ?_, fun t p st v hv => ?_, ?_, by norm_num⟩
  · unfold end_angle
    rw [if_pos h]
  · rw [slice_step_slices_nonzero t p st v hv]
    simp
  · norm_num [run, init_state, slice_step, end_angle, end_angle_raw, overlap_start_angle,
      large_arc, slice_path, values_total, normalized_sum, normalize_series, center,
      center_min, radius, label_radius, polar_to_cartesian, trig0, List.foldl, max_def,
      min_def, props_c6]

/-- Witness for the hypothesis-bearing parts of the C6 theorem: the clamp
condition holds for the single full-circle slice of `series = [1]`. -/
theorem c6_full_circle_clamp_witness :
    end_angle props_c6 (init_state props_c6) 1 =
      overlap_start_angle (init_state props_c6) + 35999 / 100 ∧
    (slice_step trig0 props_c6 (init_state props_c6) 1).slices.map
        (fun d => (d.drawnStartAngle, d.endAngle)) =
      (init_state props_c6).slices.map (fun d => (d.drawnStartAngle, d.endAngle)) ++
        [(overlap_start_angle (init_state props_c6),
          end_angle props_c6 (init_state props_c6) 1)] :=
  ⟨c6_full_circle_clamp.1 props_c6 (init_state props_c6) 1
    (by norm_num [end_angle_raw, overlap_start_angle, init_state, values_total,
      normalized_sum, normalize_series, props_c6, max_def, min_def]),
   c6_full_circle_clamp.2.1 trig0 props_c6 (init_state props_c6) 1 (by norm_num)⟩

/-- Claim C4: when the resolved total is non-positive, the guarded walk emits
no slice at all (the division by `values_total` is behind a positivity guard),
so every emitted slice's span is vacuously zero, for every configured start
angle. -/
theorem c4_zero_total (t : Trig) (p : PieChartProps) (h : values_total p ≤ 0) :
    (run t p).slices = [] ∧ ∀ d ∈ (run t p).slices, d.endAngle - d.startAngle = 0 := by
  have hz : ∀ v ∈ normalize_series p.series, v = 0 :=
    all_zero_of_sum_nonpos _ (normalize_series_nonneg p.series)
      (by simpa [normalized_sum] using normalized_sum_nonpos p h)
  have hsl : (run t p).slices = [] := by
    unfold run
    rw [foldl_zero_slices t p _ _ hz]
    rfl
  refine ⟨hsl, ?_⟩
  rw [hsl]
  simp

/-- Witness for the C4 theorem at a concrete all-negative series, whose
resolved total is 0. -/
theorem c4_zero_total_witness :
    values_total props_c4 ≤ 0 ∧ (run trig0 props_c4).slices = [] :=
  ⟨by norm_num [values_total, normalized_sum, normalize_series, props_c4, max_def],
   (c4_zero_total trig0 props_c4
     (by norm_num [values_total, normalized_sum, normalize_series, props_c4, max_def])).1⟩

end Pie

namespace Pie

/-- Claim C3 as stated is false: labels are being rendered (default
`show_labels`, no explicit labels), the second series entry is 1 (non-zero),
its recorded anchor is the honest projection (-70, 200) (the probe agrees
with the exact cosine/sine at both anchor angles, 0 and 180 degrees), yet the
emitted label list contains only the first entry's label: emission is gated
on `position.x > 0.0`, so suppression does depend on the coordinate sign. -/
theorem c3_claim_counterexample :
    props_c3.series[1]? = some 1 ∧
    props_c3.show_labels = true ∧
    props_c3.labels = none ∧
    (run quad_trig props_c3).label_positions = [Point.mk 670 200, Point.mk (-70) 200] ∧
    emitted_value_labels quad_trig props_c3 = [(Point.mk 670 200, 1)] := by
  refine ⟨rfl, rfl, rfl, ?_, ?_⟩
  · norm_num [run, init_state, slice_step, end_angle, end_angle_raw, overlap_start_angle,
      large_arc, slice_path, values_total, normalized_sum, normalize_series, center,
      center_min, radius, label_radius, polar_to_cartesian, quad_trig, List.foldl,
      max_def, min_def, props_c3]
  · norm_num [emitted_value_labels, run, init_state, slice_step, end_angle, end_angle_raw,
      overlap_start_angle, large_arc, slice_path, values_total, normalized_sum,
      normalize_series, center, center_min, radius, label_radius, polar_to_cartesian,
      quad_trig, List.foldl, List.filter, List.zip, max_def, min_def, props_c3]

/-- Claim C3 amended: for a non-zero entry the recorded anchor is exactly
`polar_to_cartesian center label_radius midAngle` with `midAngle` the midpoint
of the pre-correction start angle and the (possibly clamped) end angle; but a
label is emitted only when the anchor satisfies `0 < x` - every pair in
either emitted label list passes that coordinate test, so anchors with
`x ≤ 0` are suppressed even for non-zero entries. -/
theorem c3_label_anchor :
    (∀ (t : Trig) (p : PieChartProps) (st : WalkState) (v : ℚ), v ≠ 0 →
        (slice_step t p st v).label_positions = st.label_positions ++
          [polar_to_cartesian t (center p) (label_radius p)
            (st.m_start_angle + (end_angle p st v - st.m_start_angle) / 2)]) ∧
    (∀ (t : Trig) (p : PieChartProps) (q : Point × ℚ),
        q ∈ emitted_value_labels t p → 0 < q.1.x) ∧
    (∀ (t : Trig) (p : PieChartProps) (q : Point × String),
        q ∈ emitted_text_labels t p → 0 < q.1.x) := by
  refine ⟨fun t p st v hv => by simp [slice_step, hv], fun t p q hq => ?_, fun t p q hq => ?_⟩
  · unfold emitted_value_labels at hq
    cases hl : p.labels with
    | some ls =>
      rw [hl] at hq
      simp at hq
    | none =>
      rw [hl] at hq
      by_cases hs : p.show_labels
      · rw [if_pos hs] at hq
        have := (List.mem_filter.mp hq).2
        simpa using this
      · rw [if_neg hs] at hq
        simp at hq
  · unfold emitted_text_labels at hq
    cases hl : p.labels with
    | some ls =>
      rw [hl] at hq
      have := (List.mem_filter.mp hq).2
      simpa using this
    | none =>
      rw [hl] at hq
      simp at hq

/-- Witness for the hypothesis-bearing parts of the C3 amended theorem: the
anchor formula applied to the first slice of the C3 configuration, and the
coordinate test applied to the one emitted label pair. -/
theorem c3_label_anchor_witness :
    (slice_step trig0 props_c3 (init_state props_c3) 1).label_positions =
      (init_state props_c3).label_positions ++
        [polar_to_cartesian trig0 (center props_c3) (label_radius props_c3)
          ((init_state props_c3).m_start_angle +
            (end_angle props_c3 (init_state props_c3) 1 -
              (init_state props_c3).m_start_angle) / 2)] ∧
    0 < (Point.mk 670 200, (1 : ℚ)).1.x :=
  ⟨c3_label_anchor.1 trig0 props_c3 (init_state props_c3) 1 (by norm_num),
   c3_label_anchor.2.1 quad_trig props_c3 (Point.mk 670 200, 1)
     (by norm_num [emitted_value_labels, run, init_state, slice_step, end_angle,
       end_angle_raw, overlap_start_angle, large_arc, slice_path, values_total,
       normalized_sum, normalize_series, center, center_min, radius, label_radius,
       polar_to_cartesian, quad_trig, List.foldl, List.filter, List.zip, max_def,
       min_def, props_c3])⟩

end Pie

namespace Pie

/-- Clamp-free walk invariant: if the full-circle clamp never fires, the
bookkeeping angle advances by `v / values_total * 360` per entry, and the
sum of descriptor spans equals the bookkeeping angle's total advance. -/
lemma walk_angles (t : Trig) (p : PieChartProps) (hvt : 0 < values_total p) :
    ∀ (l : List ℚ) (st : WalkState), no_clamp_walk t p l st →
      (List.foldl (slice_step t p) st l).m_start_angle =
          st.m_start_angle + l.sum / values_total p * 360 ∧
      ((List.foldl (slice_step t p) st l).slices.map
          (fun d => d.endAngle - d.startAngle)).sum =
        (st.slices.map (fun d => d.endAngle - d.startAngle)).sum +
          ((List.foldl (slice_step t p) st l).m_start_angle - st.m_start_angle) := by
  intro l
  induction l with
  | nil =>
    intro st _
    constructor <;> simp
  | cons v tl ih =>
    intro st h
    obtain ⟨h1, h2⟩ := h
    rw [List.foldl_cons]
    by_cases hv : v = 0
    · subst hv
      obtain ⟨ih1, ih2⟩ := ih (slice_step t p st 0) h2
      have hm : (slice_step t p st 0).m_start_angle = st.m_start_angle := by
        simp [slice_step]
      have hs : (slice_step t p st 0).slices = st.slices := slice_step_slices_zero t p st
      constructor
      · rw [ih1, hm, List.sum_cons]
        ring
      · rw [ih2, hm, hs]
    · have h1v := h1 hv
      have hend : end_angle p st v = end_angle_raw p st v := by
        unfold end_angle
        rw [if_neg (not_le.mpr h1v)]
      have hraw : end_angle_raw p st v = st.m_start_angle + v / values_total p * 360 := by
        unfold end_angle_raw
        rw [if_pos hvt]
      obtain ⟨ih1, ih2⟩ := ih (slice_step t p st v) h2
      have hm : (slice_step t p st v).m_start_angle =
          st.m_start_angle + v / values_total p * 360 := by
        simp [slice_step, hv, hend, hraw]
      have hs := slice_step_slices_nonzero t p st v hv
      constructor
      · rw [ih1, hm, List.sum_cons]
        ring
      · rw [ih2, hm, hs]
        simp only [List.map_append, List.sum_append, List.map_cons, List.map_nil,
          List.sum_cons, List.sum_nil, hend, hraw]
        ring

/-- Claim C1: for a positive resolved total, at least one non-zero normalized
entry, and a walk in which the deliberate 359.99-degree full-circle clamp
never fires, the spans `endAngle - startAngle` of the emitted slices sum to
exactly `360 * (normalizedSum / valuesTotal)` - in particular to 360 when the
total is the natural normalized sum. -/
theorem c1_partition (t : Trig) (p : PieChartProps)
    (hvt : 0 < values_total p)
    (hnz : ∃ v ∈ normalize_series p.series, v ≠ 0)
    (hcl : no_clamp_run t p) :
    ((run t p).slices.map (fun d => d.endAngle - d.startAngle)).sum =
      360 * (normalized_sum p / values_total p) := by
  obtain ⟨h1, h2⟩ := walk_angles t p hvt (normalize_series p.series) (init_state p) hcl
  unfold run
  rw [h2, h1]
  simp only [init_state, List.map_nil, List.sum_nil, normalized_sum]
  ring

/-- Witness for the C1 theorem at `series = [1,1,1,1]` with defaults: the
resolved total is positive, the clamp never fires, and the spans add to 360
degrees (each slice spans 90). -/
theorem c1_partition_witness :
    0 < values_total props_c1 ∧
    ((run trig0 props_c1).slices.map (fun d => d.endAngle - d.startAngle)).sum =
      360 * (normalized_sum props_c1 / values_total props_c1) :=
  ⟨by norm_num [values_total, normalized_sum, normalize_series, props_c1, max_def],
   c1_partition trig0 props_c1
     (by norm_num [values_total, normalized_sum, normalize_series, props_c1, max_def])
     ⟨1, by norm_num [normalize_series, props_c1, max_def], one_ne_zero⟩
     (by norm_num [no_clamp_run, no_clamp_walk, init_state, slice_step, end_angle,
       end_angle_raw, overlap_start_angle, large_arc, slice_path, values_total,
       normalized_sum, normalize_series, center, center_min, radius, label_radius,
       polar_to_cartesian, trig0, List.foldl, max_def, min_def, props_c1])⟩

end Pie

namespace Pie

/-- Clamp-free equivalence of the seam-corrected and uncorrected walks: from
states agreeing on all bookkeeping, the two walks keep agreeing on the
bookkeeping angle, the color and index counters, every label anchor, and the
bookkeeping projection of every slice. -/
lemma seam_walk_eq (t : Trig) (p : PieChartProps) :
    ∀ (l : List ℚ) (st₁ st₂ : WalkState),
      st₁.m_start_angle = st₂.m_start_angle →
      st₁.color_var = st₂.color_var →
      st₁.class_index = st₂.class_index →
      st₁.label_positions = st₂.label_positions →
      st₁.slices.map slice_book = st₂.slices.map slice_book →
      no_clamp_walk t p l st₁ →
      no_clamp_walk_ns t p l st₂ →
      (List.foldl (slice_step t p) st₁ l).m_start_angle =
          (List.foldl (slice_step_ns t p) st₂ l).m_start_angle ∧
        (List.foldl (slice_step t p) st₁ l).color_var =
          (List.foldl (slice_step_ns t p) st₂ l).color_var ∧
        (List.foldl (slice_step t p) st₁ l).class_index =
          (List.foldl (slice_step_ns t p) st₂ l).class_index ∧
        (List.foldl (slice_step t p) st₁ l).label_positions =
          (List.foldl (slice_step_ns t p) st₂ l).label_positions ∧
        (List.foldl (slice_step t p) st₁ l).slices.map slice_book =
          (List.foldl (slice_step_ns t p) st₂ l).slices.map slice_book := by
  intro l
  induction l with
  | nil =>
    intro st₁ st₂ hm hc hi hl hs _ _
    exact ⟨hm, hc, hi, hl, hs⟩
  | cons v tl ih =>
    intro st₁ st₂ hm hc hi hl hs h₁ h₂
    obtain ⟨h1a, h1b⟩ := h₁
    obtain ⟨h2a, h2b⟩ := h₂
    rw [List.foldl_cons, List.foldl_cons]
    by_cases hv : v = 0
    · subst hv
      exact ih _ _ (by simp [slice_step, slice_step_ns, hm])
        (by simp [slice_step, slice_step_ns, hc])
        (by simp [slice_step, slice_step_ns, hi])
        (by simp [slice_step, slice_step_ns, hl])
        (by simp [slice_step, slice_step_ns, hs]) h1b h2b
    · have hraw : end_angle_raw p st₁ v = end_angle_raw p st₂ v := by
        unfold end_angle_raw
        rw [hm]
      have he₁ : end_angle p st₁ v = end_angle_raw p st₁ v := by
        unfold end_angle
        rw [if_neg (not_le.mpr (h1a hv))]
      have he₂ : end_angle_ns p st₂ v = end_angle_raw p st₂ v := by
        unfold end_angle_ns
        rw [if_neg (not_le.mpr (h2a hv))]
      exact ih _ _
        (by simp [slice_step, slice_step_ns, hv, he₁, he₂, hraw, hm])
        (by simp [slice_step, slice_step_ns, hv, hc, hi])
        (by simp [slice_step, slice_step_ns, hv, hi])
        (by simp [slice_step, slice_step_ns, hv, hl, hm, he₁, he₂, hraw])
        (by simp [slice_step, slice_step_ns, hv, hs, hm, hc, hi, he₁, he₂, hraw,
          slice_book])
        h1b h2b

/-- Claim C8 as stated is false: on `series = [0.3, 359.7]` with defaults the
full-circle clamp fires for the second slice only because of the 0.4-degree
anti-seam correction, so the bookkeeping angle after the walk is 359.99
degrees in the real walk but 360 in the uncorrected comparison walk, and the
recorded label anchors differ - the correction does leak into the
bookkeeping when the clamp fires. -/
theorem c8_claim_counterexample :
    (run probe_trig props_c8).m_start_angle = 35999 / 100 ∧
    (run_ns probe_trig props_c8).m_start_angle = 360 ∧
    (35999 / 100 : ℚ) ≠ 360 ∧
    (run probe_trig props_c8).label_positions ≠
      (run_ns probe_trig props_c8).label_positions := by
  refine ⟨?_, ?_, by norm_num, ?_⟩
  · norm_num [run, init_state, slice_step, end_angle, end_angle_raw, overlap_start_angle,
      large_arc, slice_path, values_total, normalized_sum, normalize_series, center,
      center_min, radius, label_radius, polar_to_cartesian, probe_trig, List.foldl,
      max_def, min_def, props_c8]
  · norm_num [run_ns, init_state, slice_step_ns, end_angle_ns, end_angle_raw,
      overlap_start_angle, large_arc, slice_path, values_total, normalized_sum,
      normalize_series, center, center_min, radius, label_radius, polar_to_cartesian,
      probe_trig, List.foldl, max_def, min_def, props_c8]
  · norm_num [run, run_ns, init_state, slice_step, slice_step_ns, end_angle, end_angle_ns,
      end_angle_raw, overlap_start_angle, large_arc, slice_path, values_total,
      normalized_sum, normalize_series, center, center_min, radius, label_radius,
      polar_to_cartesian, probe_trig, List.foldl, max_def, min_def, props_c8,
      Point.mk.injEq]

/-- Claim C8 amended: as long as the full-circle clamp fires in neither the
real walk nor the uncorrected comparison walk, the anti-seam correction
changes only each slice's drawn start angle: the bookkeeping angle, the label
anchors, and the index/start/end/color content of every slice descriptor are
identical with and without the correction, for every series, start angle,
total and trigonometric projector. -/
theorem c8_seam_isolation (t : Trig) (p : PieChartProps)
    (h₁ : no_clamp_run t p) (h₂ : no_clamp_run_ns t p) :
    (run t p).m_start_angle = (run_ns t p).m_start_angle ∧
    (run t p).label_positions = (run_ns t p).label_positions ∧
    (run t p).slices.map slice_book = (run_ns t p).slices.map slice_book := by
  have h := seam_walk_eq t p (normalize_series p.series) (init_state p) (init_state p)
    rfl rfl rfl rfl rfl h₁ h₂
  exact ⟨h.1, h.2.2.2.1, h.2.2.2.2⟩

/-- Witness for the C8 amended theorem at `series = [1,1,1,1]`: the clamp
fires in neither walk and the bookkeeping of the two walks coincides. -/
theorem c8_seam_isolation_witness :
    no_clamp_run trig0 props_c1 ∧
    (run trig0 props_c1).label_positions = (run_ns trig0 props_c1).label_positions :=
  ⟨by norm_num [no_clamp_run, no_clamp_walk, init_state, slice_step, end_angle,
     end_angle_raw, overlap_start_angle, large_arc, slice_path, values_total,
     normalized_sum, normalize_series, center, center_min, radius, label_radius,
     polar_to_cartesian, trig0, List.foldl, max_def, min_def, props_c1],
   (c8_seam_isolation trig0 props_c1
     (by norm_num [no_clamp_run, no_clamp_walk, init_state, slice_step, end_angle,
       end_angle_raw, overlap_start_angle, large_arc, slice_path, values_total,
       normalized_sum, normalize_series, center, center_min, radius, label_radius,
       polar_to_cartesian, trig0, List.foldl, max_def, min_def, props_c1])
     (by norm_num [no_clamp_run_ns, no_clamp_walk_ns, init_state, slice_step_ns,
       end_angle_ns, end_angle_raw, overlap_start_angle, large_arc, slice_path,
       values_total, normalized_sum, normalize_series, center, center_min, radius,
       label_radius, polar_to_cartesian, trig0, List.foldl, max_def, min_def,
       props_c1])).2.1⟩

end Pie

namespace Pie

/-- Every walk step appends exactly one label anchor. -/
lemma step_anchors_len (t : Trig) (p : PieChartProps) (st : WalkState) (v : ℚ) :
    (slice_step t p st v).label_positions.length = st.label_positions.length + 1 := by
  by_cases hv : v = 0 <;> simp [slice_step, hv]

/-- The walk appends exactly one label anchor per series entry. -/
lemma foldl_anchors_len (t : Trig) (p : PieChartProps) :
    ∀ (l : List ℚ) (st : WalkState),
      (List.foldl (slice_step t p) st l).label_positions.length =
        st.label_positions.length + l.length := by
  intro l
  induction l with
  | nil => intro st; simp
  | cons v tl ih =>
    intro st
    rw [List.foldl_cons, ih, step_anchors_len, List.length_cons]
    omega

/-- The walk only ever appends to the anchor list. -/
lemma foldl_anchors_extend (t : Trig) (p : PieChartProps) :
    ∀ (l : List ℚ) (st : WalkState),
      ∃ ex, (List.foldl (slice_step t p) st l).label_positions =
        st.label_positions ++ ex := by
  intro l
  induction l with
  | nil => intro st; exact ⟨[], by simp⟩
  | cons v tl ih =>
    intro st
    obtain ⟨ex, hex⟩ := ih (slice_step t p st v)
    obtain ⟨a, ha⟩ : ∃ a, (slice_step t p st v).label_positions =
        st.label_positions ++ [a] := by
      by_cases hv : v = 0
      · exact ⟨Point.mk (-1) (-1), by simp [slice_step, hv]⟩
      · exact ⟨polar_to_cartesian t (center p) (label_radius p)
          (st.m_start_angle + (end_angle p st v - st.m_start_angle) / 2),
          by simp [slice_step, hv]⟩
    exact ⟨a :: ex, by rw [List.foldl_cons, hex, ha]; simp⟩

/-- A zero entry at position `i` of the walked list leaves the sentinel anchor
at the corresponding position of the anchor list. -/
lemma foldl_anchor_sentinel (t : Trig) (p : PieChartProps) :
    ∀ (l : List ℚ) (st : WalkState) (i : ℕ), l[i]? = some 0 →
      ((List.foldl (slice_step t p) st l).label_positions)[st.label_positions.length + i]? =
        some (Point.mk (-1) (-1)) := by
  intro l
  induction l with
  | nil =>
    intro st i h
    simp at h
  | cons v tl ih =>
    intro st i h
    rw [List.foldl_cons]
    cases i with
    | zero =>
      have hv : v = 0 := by simpa using h
      subst hv
      obtain ⟨ex, hex⟩ := foldl_anchors_extend t p tl (slice_step t p st 0)
      have hz : (slice_step t p st 0).label_positions =
          st.label_positions ++ [Point.mk (-1) (-1)] := by
        simp [slice_step]
      rw [hex, hz, List.append_assoc,
        List.getElem?_append_right (Nat.le_add_right _ _)]
      simp
    | succ i =>
      have h' : tl[i]? = some 0 := by simpa using h
      have hrec := ih (slice_step t p st v) i h'
      rw [step_anchors_len] at hrec
      have heq : st.label_positions.length + (i + 1) =
          st.label_positions.length + 1 + i := by omega
      rw [heq]
      exact hrec

/-- The anchor recorded at position `i` is already fixed after walking the
first `i + 1` entries: it is derived from the series entry at position `i`
(and the entries before it), not from later entries. -/
lemma foldl_anchor_determined (t : Trig) (p : PieChartProps) :
    ∀ (l : List ℚ) (st : WalkState) (i : ℕ), i < l.length →
      ((List.foldl (slice_step t p) st l).label_positions)[st.label_positions.length + i]? =
        ((List.foldl (slice_step t p) st (l.take (i + 1))).label_positions)[st.label_positions.length + i]? := by
  intro l st i hi
  conv_lhs => rw [← List.take_append_drop (i + 1) l]
  rw [List.foldl_append]
  obtain ⟨ex, hex⟩ :=
    foldl_anchors_extend t p (l.drop (i + 1)) (List.foldl (slice_step t p) st (l.take (i + 1)))
  rw [hex, List.getElem?_append_left]
  rw [foldl_anchors_len, List.length_take]
  omega

/-- Claim C9: for a non-empty series the anchor list has exactly one entry
per series position; position `i` of it corresponds to series position `i`:
a zero normalized entry at `i` puts the suppression sentinel exactly at
anchor position `i`, and the anchor at `i` is already determined by the walk
over the first `i + 1` normalized entries. -/
theorem c9_order_preservation (t : Trig) (p : PieChartProps) (h : p.series ≠ []) :
    (run t p).label_positions.length = p.series.length ∧
    (∀ i : ℕ, (normalize_series p.series)[i]? = some 0 →
        (run t p).label_positions[i]? = some (Point.mk (-1) (-1))) ∧
    (∀ i : ℕ, i < p.series.length →
        (run t p).label_positions[i]? =
          ((List.foldl (slice_step t p) (init_state p)
            ((normalize_series p.series).take (i + 1))).label_positions)[i]?) := by
  refine ⟨?_, fun i hi => ?_, fun i hi => ?_⟩
  · unfold run
    rw [foldl_anchors_len]
    simp [init_state, normalize_series]
  · unfold run
    have hrec := foldl_anchor_sentinel t p (normalize_series p.series) (init_state p) i hi
    simpa [init_state] using hrec
  · unfold run
    have hlen : i < (normalize_series p.series).length := by
      simpa [normalize_series] using hi
    have hrec := foldl_anchor_determined t p (normalize_series p.series) (init_state p) i hlen
    simpa [init_state] using hrec

/-- Witness for the C9 theorem at `series = [5, 0, 3]`: three anchors, and
the zero entry at position 1 puts the sentinel at anchor position 1. -/
theorem c9_order_preservation_witness :
    props_c9.series ≠ [] ∧
    (run trig0 props_c9).label_positions.length = props_c9.series.length ∧
    (run trig0 props_c9).label_positions[1]? = some (Point.mk (-1) (-1)) :=
  ⟨by simp [props_c9],
   (c9_order_preservation trig0 props_c9 (by simp [props_c9])).1,
   (c9_order_preservation trig0 props_c9 (by simp [props_c9])).2.1 1
     (by norm_num [normalize_series, props_c9, max_def])⟩

end Pie
